import Mathlib

/-!
Verification of the rosbag reader (`src/rosbag/rosbag.py`): a shallow
embedding of the byte-level record parser, the three version-specific
serializers and the `Bag` facade, together with theorems settling the
frozen claims about them.

Bytes are modelled as `List Nat` (each element one byte), a seekable byte
source as such a list plus an explicit position, and Python exceptions as
an explicit error type threaded through `Except`.
-/

set_option maxRecDepth 100000

namespace Rosbag

/-- A byte string: each element is one byte 0..255. -/
abbrev Bytes := List Nat

/-- The exceptions the reader can raise.  `rosBagFormat` is
`ROSBagFormatException`, `rosBag` the base `ROSBagException`; `structError`
is Python's `struct.error` (raised by `struct.unpack` on a buffer of the
wrong length); `keyError`, `indexError` and `nameError` are the
corresponding Python built-ins.  `fuel` is a modelling artifact: recursion
fuel ran out (never reached when the fuel exceeds the source's length). -/
inductive PyErr where
  | rosBagFormat (msg : String)
  | rosBag (msg : String)
  | structError
  | keyError
  | indexError
  | nameError
  | fuel
deriving DecidableEq, Repr

/-- `isinstance(e, ROSBagException)`: `ROSBagFormatException` subclasses it. -/
def PyErr.isROSBagException : PyErr → Bool
  | .rosBagFormat _ => true
  | .rosBag _ => true
  | _ => false

/-- `isinstance(e, ROSBagFormatException)`. -/
def PyErr.isFormat : PyErr → Bool
  | .rosBagFormat _ => true
  | _ => false

/-- ASCII bytes of a string (all strings in the format are ASCII). -/
def strB (s : String) : Bytes := s.data.map Char.toNat

/-- Python `f.read(n)` on a seekable source: up to `n` bytes from `pos`,
advancing by the number of bytes actually read. -/
def fread (f : Bytes) (pos n : Nat) : Bytes × Nat :=
  let d := (f.drop pos).take n
  (d, pos + d.length)

/-- `struct.unpack('<B', v)[0]`. -/
def unpack_uint8 : Bytes → Except PyErr Nat
  | [a] => .ok a
  | _ => .error .structError

/-- `struct.unpack('<L', v)[0]` (little endian). -/
def unpack_uint32 : Bytes → Except PyErr Nat
  | [a, b, c, d] => .ok (a + 256 * b + 65536 * c + 16777216 * d)
  | _ => .error .structError

/-- `struct.unpack('<Q', v)[0]` (little endian). -/
def unpack_uint64 : Bytes → Except PyErr Nat
  | [a, b, c, d, e, g, h, i] =>
      .ok ((a + 256 * b + 65536 * c + 16777216 * d) +
           4294967296 * (e + 256 * g + 65536 * h + 16777216 * i))
  | _ => .error .structError

/-- `struct.unpack('<LL', v)`: a time value, (secs, nsecs). -/
def unpack_time : Bytes → Except PyErr (Nat × Nat)
  | [a, b, c, d, e, g, h, i] =>
      .ok (a + 256 * b + 65536 * c + 16777216 * d,
           e + 256 * g + 65536 * h + 16777216 * i)
  | _ => .error .structError

/-- `_read_uint8(f)`: read one byte and unpack it. -/
def read_uint8 (f : Bytes) (pos : Nat) : Except PyErr (Nat × Nat) :=
  let (d, p) := fread f pos 1
  do pure (← unpack_uint8 d, p)

/-- `_read_uint32(f)`. -/
def read_uint32 (f : Bytes) (pos : Nat) : Except PyErr (Nat × Nat) :=
  let (d, p) := fread f pos 4
  do pure (← unpack_uint32 d, p)

/-- `_read_uint64(f)`. -/
def read_uint64 (f : Bytes) (pos : Nat) : Except PyErr (Nat × Nat) :=
  let (d, p) := fread f pos 8
  do pure (← unpack_uint64 d, p)

/-- `_read_time(f)`. -/
def read_time (f : Bytes) (pos : Nat) : Except PyErr ((Nat × Nat) × Nat) :=
  let (d, p) := fread f pos 8
  do pure (← unpack_time d, p)

/-- `_read(f, size)`: an exact read; a short read raises `ROSBagException`. -/
def read_exact (f : Bytes) (pos n : Nat) : Except PyErr (Bytes × Nat) :=
  let (d, p) := fread f pos n
  if d.length ≠ n then
    .error (.rosBag ("Expecting " ++ toString n ++ " bytes, read " ++ toString d.length))
  else .ok (d, p)

/-- `_read_sized(f)`: a u32 length then exactly that many bytes. -/
def read_sized (f : Bytes) (pos : Nat) : Except PyErr (Bytes × Nat) := do
  let (size, p) ← read_uint32 f pos
  read_exact f p size

/-- A parsed record header: a Python dict `name -> raw value`.  Keys are
unique; assignment replaces in place, a fresh key is appended. -/
abbrev HeaderDict := List (Bytes × Bytes)

/-- Python dict assignment `d[k] = v`. -/
def dictSet {α : Type} (d : List (Bytes × α)) (k : Bytes) (v : α) : List (Bytes × α) :=
  if d.any (fun p => p.1 == k) then d.map (fun p => if p.1 == k then (k, v) else p)
  else d ++ [(k, v)]

/-- Python dict lookup `d.get(k)`. -/
def dictGet {α : Type} (d : List (Bytes × α)) (k : Bytes) : Option α :=
  (d.find? (fun p => p.1 == k)).map (·.2)

/-- Python dict assignment for Nat keys (the chunk-header table). -/
def ndictSet {α : Type} (d : List (Nat × α)) (k : Nat) (v : α) : List (Nat × α) :=
  if d.any (fun p => p.1 == k) then d.map (fun p => if p.1 == k then (k, v) else p)
  else d ++ [(k, v)]

/-- Python dict lookup for Nat keys. -/
def ndictGet {α : Type} (d : List (Nat × α)) (k : Nat) : Option α :=
  (d.find? (fun p => p.1 == k)).map (·.2)

/-- `v[:4]` unpacked as u32; only used when at least 4 bytes are present. -/
def le32 : Bytes → Nat
  | a :: b :: c :: d :: _ => a + 256 * b + 65536 * c + 16777216 * d
  | _ => 0

/-- `str.partition('=')` on a field's bytes: split at the first `=` (61). -/
def splitOnEq : Bytes → Option (Bytes × Bytes)
  | [] => none
  | b :: rest =>
    if b = 61 then some ([], rest)
    else (splitOnEq rest).map (fun p => (b :: p.1, p.2))

/-- The field-parsing loop of `_read_record_header`: the header blob is a
packed sequence of `u32 size` then `size` bytes holding `name=value`.  The
first argument is recursion fuel; each loop iteration of the source consumes
at least four bytes, so fuel equal to the blob's length (as supplied by
`read_record_header`) can never run out. -/
def parseHeaderFields : Nat → Bytes → HeaderDict → Except PyErr HeaderDict
  | _, [], acc => .ok acc
  | 0, _ :: _, _ => .error .fuel
  | fuel + 1, h, acc =>
    if h.length < 4 then .error (.rosBagFormat "Error reading record header field")
    else
      let size := le32 (h.take 4)
      let rest := h.drop 4
      if rest.length < size then .error (.rosBagFormat "Error reading record header field")
      else match splitOnEq (rest.take size) with
        | none => .error (.rosBagFormat "Error reading record header field")
        | some (n, v) => parseHeaderFields fuel (rest.drop size) (dictSet acc n v)

/-- `_read_record_header(f)`: read the sized header blob (wrapping a short
read into a format error) and parse its fields. -/
def read_record_header (f : Bytes) (pos : Nat) : Except PyErr (HeaderDict × Nat) :=
  match read_sized f pos with
  | .error e =>
      .error (if e.isROSBagException then .rosBagFormat "Error reading record header" else e)
  | .ok (blob, p) => do
      let dict ← parseHeaderFields blob.length blob []
      .ok (dict, p)

/-- `_read_record_data(f)`: the sized data blob, a short read wrapped into a
format error. -/
def read_record_data (f : Bytes) (pos : Nat) : Except PyErr (Bytes × Nat) :=
  match read_sized f pos with
  | .error e =>
      .error (if e.isROSBagException then .rosBagFormat "Error reading record data" else e)
  | .ok r => .ok r

/-- `_read_field(header, field, unpack_fn)`: absence or a failing unpack is a
format error. -/
def read_field {α : Type} (h : HeaderDict) (field : Bytes)
    (unpack : Bytes → Except PyErr α) : Except PyErr α :=
  match dictGet h field with
  | none => .error (.rosBagFormat "Expected field in record")
  | some v =>
    match unpack v with
    | .error _ => .error (.rosBagFormat "Error reading field")
    | .ok x => .ok x

/-- `_read_str_field`. -/
def read_str_field (h : HeaderDict) (field : Bytes) : Except PyErr Bytes :=
  read_field h field (fun v => .ok v)

/-- `_read_uint8_field`. -/
def read_uint8_field (h : HeaderDict) (field : Bytes) : Except PyErr Nat :=
  read_field h field unpack_uint8

/-- `_read_uint32_field`. -/
def read_uint32_field (h : HeaderDict) (field : Bytes) : Except PyErr Nat :=
  read_field h field unpack_uint32

/-- `_read_uint64_field`. -/
def read_uint64_field (h : HeaderDict) (field : Bytes) : Except PyErr Nat :=
  read_field h field unpack_uint64

/-- `_read_time_field`. -/
def read_time_field (h : HeaderDict) (field : Bytes) : Except PyErr (Nat × Nat) :=
  read_field h field unpack_time

/-- `_assert_op(header, expected_op)`. -/
def assert_op (h : HeaderDict) (expected : Nat) : Except PyErr Unit := do
  let op ← read_uint8_field h (strB "op")
  if expected ≠ op then
    .error (.rosBagFormat ("Expected op code: " ++ toString expected ++ ", got " ++ toString op))
  else .ok ()

/-- The record opcodes shared by the serializers. -/
def OP_MSG_DEF : Nat := 1
def OP_MSG_DATA : Nat := 2
def OP_FILE_HEADER : Nat := 3
def OP_INDEX_DATA : Nat := 4
def OP_CHUNK : Nat := 5
def OP_CHUNK_INFO : Nat := 6

/-- `TopicInfo`: metadata of one topic, parsed from a message-definition
record. -/
structure TopicInfo where
  topic : Bytes
  datatype : Bytes
  md5sum : Bytes
  msg_def : Bytes
deriving DecidableEq, Repr

/-- `ChunkInfo`: one chunk's position, time range and per-topic counts. -/
structure ChunkInfo where
  pos : Nat
  start_time : Nat × Nat
  end_time : Nat × Nat
  topic_counts : List (Bytes × Nat)
deriving DecidableEq, Repr

/-- `ChunkHeader`: a chunk record's parsed header plus the position of its
stored payload. -/
structure ChunkHeader where
  compression : Bytes
  compressed_size : Nat
  uncompressed_size : Nat
  data_pos : Nat
deriving DecidableEq, Repr

/-- `IndexEntry102`: time and an absolute file offset. -/
structure IndexEntry102 where
  time : Nat × Nat
  offset : Nat
deriving DecidableEq, Repr

/-- `IndexEntry103`: time, the owning chunk's position and an offset inside
the uncompressed chunk payload. -/
structure IndexEntry103 where
  time : Nat × Nat
  chunk_pos : Nat
  offset : Nat
deriving DecidableEq, Repr

/-- A deserialized message.  The external deserializer is deterministic in
the record's data blob, so a message value is its datatype together with
the serialized bytes it was built from; equality is byte identity. -/
structure Msg where
  datatype : Bytes
  data : Bytes
deriving DecidableEq, Repr

/-- `_BagSerializer.read_message_definition_record(header=None)`: when
`hdr?` is `some`, the caller has already read the record header. -/
def read_message_definition_record (f : Bytes) (pos : Nat) (hdr? : Option HeaderDict) :
    Except PyErr (TopicInfo × Nat) := do
  let (header, pos) ← match hdr? with
    | some h => Except.ok (h, pos)
    | none => read_record_header f pos
  assert_op header OP_MSG_DEF
  let topic ← read_str_field header (strB "topic")
  let datatype ← read_str_field header (strB "type")
  let md5sum ← read_str_field header (strB "md5")
  let msg_def ← read_str_field header (strB "def")
  let (_, pos) ← read_record_data f pos
  .ok (⟨topic, datatype, md5sum, msg_def⟩, pos)

/-- `_BagSerializer.get_message_type(topic_info)`.  The external schema
compiler (`roslib.genpy.generate_dynamic`) is out of scope and modelled as a
deterministic total factory keyed by the datatype; the per-datatype memo
(`self.message_types`) is kept faithfully. -/
def get_message_type (memo : List Bytes) (ti : TopicInfo) : Bytes × List Bytes :=
  if ti.datatype ∈ memo then (ti.datatype, memo)
  else (ti.datatype, ti.datatype :: memo)

/-!  The v1.3 serializer (`_BagSerializer103`). -/

/-- The mutable state of a `Bag` opened with the v1.3 serializer: the parsed
tables, the per-datatype memo, the single-slot decompressed-chunk cache and
the file's read position. -/
structure Serializer103State where
  topic_infos : List (Bytes × TopicInfo)
  topic_indexes : List (Bytes × List IndexEntry103)
  chunk_infos : List ChunkInfo
  chunk_headers : List (Nat × ChunkHeader)
  message_types : List Bytes
  decompressed_chunk_pos : Option Nat
  decompressed_chunk : Bytes
  filepos : Nat
deriving DecidableEq, Repr

/-- The fields of the v1.3 file header record (opcode 0x03). -/
structure FileHeader103 where
  index_pos : Nat
  chunk_count : Nat
  topic_count : Nat
deriving DecidableEq, Repr

/-- `_BagSerializer103.read_file_header_record`. -/
def read_file_header_record103 (f : Bytes) (pos : Nat) :
    Except PyErr (FileHeader103 × Nat) := do
  let (header, pos) ← read_record_header f pos
  assert_op header OP_FILE_HEADER
  let index_pos ← read_uint64_field header (strB "index_pos")
  let chunk_count ← read_uint32_field header (strB "chunk_count")
  let topic_count ← read_uint32_field header (strB "topic_count")
  let (_, pos) ← read_record_data f pos
  .ok (⟨index_pos, chunk_count, topic_count⟩, pos)

/-- The per-topic entries of a chunk-info record's data: `count` pairs of a
sized topic name and a u32 count. -/
def readChunkTopicCounts (f : Bytes) :
    Nat → Nat → List (Bytes × Nat) → Except PyErr (List (Bytes × Nat) × Nat)
  | 0, pos, acc => .ok (acc, pos)
  | n + 1, pos, acc => do
    let (name, pos) ← read_sized f pos
    let (cnt, pos) ← read_uint32 f pos
    readChunkTopicCounts f n pos (dictSet acc name cnt)

/-- `_BagSerializer103.read_chunk_info_record`. -/
def read_chunk_info_record (f : Bytes) (pos : Nat) : Except PyErr (ChunkInfo × Nat) := do
  let (header, pos) ← read_record_header f pos
  assert_op header OP_CHUNK_INFO
  let ver ← read_uint32_field header (strB "ver")
  if ver = 1 then do
    let chunk_pos ← read_uint64_field header (strB "chunk_pos")
    let start_time ← read_time_field header (strB "start_time")
    let end_time ← read_time_field header (strB "end_time")
    let topic_count ← read_uint32_field header (strB "count")
    let (_, pos) ← read_uint32 f pos
    let (counts, pos) ← readChunkTopicCounts f topic_count pos []
    .ok (⟨chunk_pos, start_time, end_time, counts⟩, pos)
  else .error (.rosBagFormat ("Unknown chunk info record version: " ++ toString ver))

/-- `_BagSerializer103.read_chunk_header`: parse the chunk record's header,
read the u32 record-data size as the compressed size, and remember the
position of the stored payload. -/
def read_chunk_header (f : Bytes) (pos : Nat) : Except PyErr (ChunkHeader × Nat) := do
  let (header, pos) ← read_record_header f pos
  assert_op header OP_CHUNK
  let compression ← read_str_field header (strB "compression")
  let uncompressed_size ← read_uint32_field header (strB "size")
  let (compressed_size, pos) ← read_uint32 f pos
  .ok (⟨compression, compressed_size, uncompressed_size, pos⟩, pos)

/-- The entry loop of `read_topic_index_record` (v1.3): `count` pairs of a
time and a u32 offset, each becoming an `IndexEntry103` owned by the chunk
at `cpos`. -/
def readIndexEntries103 (f : Bytes) (cpos : Nat) :
    Nat → Nat → List IndexEntry103 → Except PyErr (List IndexEntry103 × Nat)
  | 0, pos, acc => .ok (acc, pos)
  | n + 1, pos, acc => do
    let (time, pos) ← read_time f pos
    let (offset, pos) ← read_uint32 f pos
    readIndexEntries103 f cpos n pos (acc ++ [⟨time, cpos, offset⟩])

/-- `_BagSerializer103.read_topic_index_record`: the owning chunk is
`self.curr_chunk_info`, passed here as `cpos`. -/
def read_topic_index_record103 (f : Bytes) (pos : Nat) (cpos : Nat) :
    Except PyErr ((Bytes × List IndexEntry103) × Nat) := do
  let (header, pos) ← read_record_header f pos
  assert_op header OP_INDEX_DATA
  let index_version ← read_uint32_field header (strB "ver")
  let topic ← read_str_field header (strB "topic")
  let count ← read_uint32_field header (strB "count")
  if index_version ≠ 1 then
    .error (.rosBagFormat ("expecting index version 1, got " ++ toString index_version))
  else do
    let (_, pos) ← read_uint32 f pos
    let (idx, pos) ← readIndexEntries103 f cpos count pos []
    .ok ((topic, idx), pos)

/-- The topic-info loop of `start_reading` (v1.3): `topic_count`
message-definition records installed under their topic key. -/
def readTopicInfos103 (f : Bytes) :
    Nat → Nat → List (Bytes × TopicInfo) → Except PyErr (List (Bytes × TopicInfo) × Nat)
  | 0, pos, acc => .ok (acc, pos)
  | n + 1, pos, acc => do
    let (ti, pos) ← read_message_definition_record f pos none
    readTopicInfos103 f n pos (dictSet acc ti.topic ti)

/-- The chunk-info loop of `start_reading` (v1.3). -/
def readChunkInfos103 (f : Bytes) :
    Nat → Nat → List ChunkInfo → Except PyErr (List ChunkInfo × Nat)
  | 0, pos, acc => .ok (acc, pos)
  | n + 1, pos, acc => do
    let (ci, pos) ← read_chunk_info_record f pos
    readChunkInfos103 f n pos (acc ++ [ci])

/-- The per-chunk topic-index loop of `start_reading` (v1.3): one topic-index
record per distinct topic of the chunk, each installed with
`topic_indexes[topic] = index` (an overwriting dict assignment). -/
def readTopicIndexRecords103 (f : Bytes) (cpos : Nat) :
    Nat → Nat → List (Bytes × List IndexEntry103) →
    Except PyErr (List (Bytes × List IndexEntry103) × Nat)
  | 0, pos, acc => .ok (acc, pos)
  | n + 1, pos, acc => do
    let ((topic, idx), pos) ← read_topic_index_record103 f pos cpos
    readTopicIndexRecords103 f cpos n pos (dictSet acc topic idx)

/-- The chunk loop of `start_reading` (v1.3): seek to each chunk, record its
header, skip its stored payload and read its topic-index records. -/
def readChunkIndexes103 (f : Bytes) :
    List ChunkInfo → List (Nat × ChunkHeader) → List (Bytes × List IndexEntry103) →
    Except PyErr (List (Nat × ChunkHeader) × List (Bytes × List IndexEntry103))
  | [], chs, tix => .ok (chs, tix)
  | ci :: rest, chs, tix => do
    let (ch, pos) ← read_chunk_header f ci.pos
    let pos := pos + ch.compressed_size
    let (tix, _) ← readTopicIndexRecords103 f ci.pos ci.topic_counts.length pos tix
    readChunkIndexes103 f rest (ndictSet chs ci.pos ch) tix

/-- `_BagSerializer103.start_reading`, beginning at `pos0` (the position just
after the version line). -/
def startReading103 (f : Bytes) (pos0 : Nat) : Except PyErr Serializer103State := do
  let (fh, _) ← read_file_header_record103 f pos0
  let (topic_infos, pos) ← readTopicInfos103 f fh.topic_count fh.index_pos []
  let (chunk_infos, pos) ← readChunkInfos103 f fh.chunk_count pos []
  let (chunk_headers, topic_indexes) ← readChunkIndexes103 f chunk_infos [] []
  .ok { topic_infos := topic_infos
        topic_indexes := topic_indexes
        chunk_infos := chunk_infos
        chunk_headers := chunk_headers
        message_types := []
        decompressed_chunk_pos := none
        decompressed_chunk := []
        filepos := pos }

/-- The shared retrieval discipline of `read_message_data_record` (v1.3 and
v1.2 indexed, the same lines in both): read record headers forward, skipping
message-definition records together with their data blobs; the first record
with another opcode must be message data, else a format error.  Returns the
position of the message-data record's data blob.  `fuel` bounds the loop; the
source loops until a non-0x01 header or a read failure. -/
def skipMsgDefsToMsgData (f : Bytes) : Nat → Nat → Except PyErr Nat
  | 0, _ => .error .fuel
  | fuel + 1, pos => do
    let (header, pos) ← read_record_header f pos
    let op ← read_uint8_field header (strB "op")
    if op ≠ OP_MSG_DEF then
      if op ≠ OP_MSG_DATA then
        .error (.rosBagFormat ("Expecting OP_MSG_DATA, got " ++ toString op))
      else .ok pos
    else do
      let (_, pos) ← read_record_data f pos
      skipMsgDefsToMsgData f fuel pos

/-- `_BagSerializer103.read_message_data_record(topic, entry)`.  `d` is the
external `bz2.decompress` (the only decompressor the code calls); its
failures propagate.  On compression `none` the file itself is the record
source; otherwise the single-slot cache is consulted and, on a miss, the
stored payload is read and decompressed into it. -/
def read_message_data_record103 (d : Bytes → Except PyErr Bytes) (f : Bytes) (fuel : Nat)
    (s : Serializer103State) (topic : Bytes) (entry : IndexEntry103) :
    Except PyErr (Msg × Serializer103State) :=
  match ndictGet s.chunk_headers entry.chunk_pos with
  | none => .error (.rosBag ("no chunk at position " ++ toString entry.chunk_pos))
  | some chunk_header => do
    let (src, spos, s1, srcIsFile) ←
      (if chunk_header.compression = strB "none" then
        .ok (f, chunk_header.data_pos + entry.offset, s, true)
      else if s.decompressed_chunk_pos = some entry.chunk_pos then
        .ok (s.decompressed_chunk, entry.offset, s, false)
      else do
        let (compressed, fpos) ← read_exact f chunk_header.data_pos chunk_header.compressed_size
        let dec ← d compressed
        .ok (dec, entry.offset,
             { s with decompressed_chunk := dec
                      decompressed_chunk_pos := some entry.chunk_pos
                      filepos := fpos }, false) :
        Except PyErr (Bytes × Nat × Serializer103State × Bool))
    let pos2 ← skipMsgDefsToMsgData src fuel spos
    match dictGet s1.topic_infos topic with
    | none => .error .keyError
    | some topic_info =>
      let (dt, memo) := get_message_type s1.message_types topic_info
      let (record_data, pos3) ← read_record_data src pos2
      .ok ({ datatype := dt, data := record_data },
           { s1 with message_types := memo
                     filepos := if srcIsFile then pos3 else s1.filepos })

/-- The per-topic entry loop of `get_messages` (v1.3). -/
def getMessagesEntries103 (d : Bytes → Except PyErr Bytes) (f : Bytes) (fuel : Nat) :
    List IndexEntry103 → Bytes → Serializer103State → List Msg →
    Except PyErr (List Msg × Serializer103State)
  | [], _, s, acc => .ok (acc, s)
  | e :: rest, topic, s, acc => do
    let (m, s) ← read_message_data_record103 d f fuel s topic e
    getMessagesEntries103 d f fuel rest topic s (acc ++ [m])

/-- The topic loop of `get_messages` (v1.3), over the items of
`topic_indexes`. -/
def getMessagesTopics103 (d : Bytes → Except PyErr Bytes) (f : Bytes) (fuel : Nat) :
    List (Bytes × List IndexEntry103) → Serializer103State → List Msg →
    Except PyErr (List Msg × Serializer103State)
  | [], s, acc => .ok (acc, s)
  | (topic, entries) :: rest, s, acc => do
    let (acc, s) ← getMessagesEntries103 d f fuel entries topic s acc
    getMessagesTopics103 d f fuel rest s acc

/-- `_BagSerializer103.get_messages`. -/
def get_messages103 (d : Bytes → Except PyErr Bytes) (f : Bytes) (fuel : Nat)
    (s : Serializer103State) : Except PyErr (List Msg × Serializer103State) :=
  getMessagesTopics103 d f fuel s.topic_indexes s []

/-!  The v1.2 indexed serializer (`_BagSerializer102_Indexed`). -/

/-- `_BagSerializer102_Indexed.read_file_header_record`: only `index_pos`. -/
def read_file_header_record102 (f : Bytes) (pos : Nat) : Except PyErr (Nat × Nat) := do
  let (header, pos) ← read_record_header f pos
  assert_op header OP_FILE_HEADER
  let index_pos ← read_uint64_field header (strB "index_pos")
  let (_, pos) ← read_record_data f pos
  .ok (index_pos, pos)

/-- The entry loop of `read_topic_index_record` (v1.2): `count` pairs of a
time and a u64 absolute file offset. -/
def readIndexEntries102 (f : Bytes) :
    Nat → Nat → List IndexEntry102 → Except PyErr (List IndexEntry102 × Nat)
  | 0, pos, acc => .ok (acc, pos)
  | n + 1, pos, acc => do
    let (time, pos) ← read_time f pos
    let (offset, pos) ← read_uint64 f pos
    readIndexEntries102 f n pos (acc ++ [⟨time, offset⟩])

/-- `_BagSerializer102_Indexed.read_topic_index_record`. -/
def read_topic_index_record102 (f : Bytes) (pos : Nat) :
    Except PyErr ((Bytes × List IndexEntry102) × Nat) := do
  let (header, pos) ← read_record_header f pos
  assert_op header OP_INDEX_DATA
  let index_version ← read_uint32_field header (strB "ver")
  let topic ← read_str_field header (strB "topic")
  let count ← read_uint32_field header (strB "count")
  if index_version ≠ 1 then
    .error (.rosBagFormat ("expecting index version 1, got " ++ toString index_version))
  else do
    let (_, pos) ← read_uint32 f pos
    let (idx, pos) ← readIndexEntries102 f count pos []
    .ok ((topic, idx), pos)

/-- The `while True` loop of `start_reading` (v1.2 indexed): it reads
topic-index records with no break or exception handler, so it runs until a
read raises.  `fuel` only bounds the recursion; with fuel larger than the
number of records the loop can only end in an error. -/
def indexLoop102 (f : Bytes) :
    Nat → Nat → List (Bytes × List IndexEntry102) →
    Except PyErr (List (Bytes × List IndexEntry102))
  | 0, _, _ => .error .fuel
  | fuel + 1, pos, acc => do
    let ((topic, idx), pos) ← read_topic_index_record102 f pos
    indexLoop102 f fuel pos (dictSet acc topic idx)

/-- The dead code after the loop of `start_reading` (v1.2 indexed): for each
topic, seek to the first index entry and parse the message-definition record
there.  Unreachable in the source, modelled for completeness. -/
def readDefs102 (f : Bytes) :
    List (Bytes × List IndexEntry102) → List (Bytes × TopicInfo) →
    Except PyErr (List (Bytes × TopicInfo))
  | [], acc => .ok acc
  | (_, idx) :: rest, acc =>
    match idx with
    | [] => .error .indexError
    | e :: _ => do
      let (ti, _) ← read_message_definition_record f e.offset none
      readDefs102 f rest (dictSet acc ti.topic ti)

/-- `_BagSerializer102_Indexed.start_reading`, beginning at `pos0`. -/
def startReading102Indexed (f : Bytes) (pos0 fuel : Nat) :
    Except PyErr (List (Bytes × TopicInfo) × List (Bytes × List IndexEntry102)) := do
  let (index_pos, _) ← read_file_header_record102 f pos0
  let topic_indexes ← indexLoop102 f fuel index_pos []
  let topic_infos ← readDefs102 f topic_indexes []
  .ok (topic_infos, topic_indexes)

/-- `_BagSerializer102_Indexed.read_message_data_record(topic)` after the
caller's `f.seek(entry.offset)`: the same skip-0x01-then-require-0x02
discipline, on the file itself. -/
def read_message_data_record102 (f : Bytes) (fuel : Nat)
    (topic_infos : List (Bytes × TopicInfo)) (memo : List Bytes)
    (topic : Bytes) (pos : Nat) : Except PyErr (Msg × List Bytes × Nat) := do
  let pos2 ← skipMsgDefsToMsgData f fuel pos
  match dictGet topic_infos topic with
  | none => .error .keyError
  | some topic_info =>
    let (dt, memo) := get_message_type memo topic_info
    let (record_data, pos3) ← read_record_data f pos2
    .ok ({ datatype := dt, data := record_data }, memo, pos3)

/-!  The v1.2 unindexed serializer (`_BagSerializer102_Unindexed`). -/

/-- `_BagSerializer102_Unindexed.get_messages`: a forward-only generator.
Each step reads a record header inside a bare `try`/`except` whose handler
returns, so any failure of the header read ends the sequence cleanly; a
message-definition record is parsed and installed into `topic_infos`; any
other record must be message data, decoded with the most recently seen
topic info.  Returns the yielded messages, `none` for a clean end or
`some e` for the exception that aborted the generator, and the final
`topic_infos`. -/
def getMessages102U (f : Bytes) :
    Nat → Nat → List (Bytes × TopicInfo) → List Bytes → Option TopicInfo → List Msg →
    List Msg × Option PyErr × List (Bytes × TopicInfo)
  | 0, _, tis, _, _, acc => (acc, some .fuel, tis)
  | fuel + 1, pos, tis, memo, lastTI, acc =>
    match read_record_header f pos with
    | .error _ => (acc, none, tis)
    | .ok (header, pos) =>
      match read_uint8_field header (strB "op") with
      | .error e => (acc, some e, tis)
      | .ok op =>
        if op = OP_MSG_DEF then
          match read_message_definition_record f pos (some header) with
          | .error e => (acc, some e, tis)
          | .ok (ti, pos) =>
            getMessages102U f fuel pos (dictSet tis ti.topic ti) memo (some ti) acc
        else if op ≠ OP_MSG_DATA then
          (acc, some (.rosBagFormat ("Expecting OP_MSG_DATA, got " ++ toString op)), tis)
        else
          match lastTI with
          | none => (acc, some .nameError, tis)
          | some ti =>
            let (dt, memo) := get_message_type memo ti
            match read_record_data f pos with
            | .error e => (acc, some e, tis)
            | .ok (record_data, pos) =>
              getMessages102U f fuel pos tis memo (some ti) (acc ++ [⟨dt, record_data⟩])

/-!  The `Bag` facade. -/

/-- `file.readline()`: bytes through the first newline (inclusive), or to
the end of the file. -/
def readline (f : Bytes) (pos : Nat) : Bytes × Nat :=
  let rest := f.drop pos
  match rest.findIdx? (fun b => b == 10) with
  | some i => (rest.take (i + 1), pos + i + 1)
  | none => (rest, pos + rest.length)

/-- A Python whitespace byte (`str.rstrip`). -/
def isPySpace (b : Nat) : Bool :=
  b == 32 || b == 9 || b == 10 || b == 13 || b == 11 || b == 12

/-- `str.rstrip()`. -/
def rstrip (s : Bytes) : Bytes := (s.reverse.dropWhile isPySpace).reverse

/-- A decimal digit byte (regex `\d`). -/
def isDigitByte (b : Nat) : Bool := decide (48 ≤ b ∧ b ≤ 57)

/-- The tail of the version pattern, ` V(\d).(\d)`, matched at the start of
`l`; the `.` between the digit groups is an unescaped any-character class
(anything but a newline).  Yields `major * 100 + minor`. -/
def matchVersionTail (l : Bytes) : Option Nat :=
  match l with
  | sp :: v :: d1 :: c :: d2 :: _ =>
    if sp = 32 ∧ v = 86 ∧ isDigitByte d1 ∧ c ≠ 10 ∧ isDigitByte d2 then
      some ((d1 - 48) * 100 + (d2 - 48))
    else none
  | _ => none

/-- `re.match("#ROS(.*) V(\d).(\d)", line)`: anchored at the start only; the
greedy `(.*)` takes the longest tag whose remainder matches the tail. -/
def matchVersionLine (line : Bytes) : Option Nat :=
  if line.take 4 = strB "#ROS" then
    let rest := line.drop 4
    (List.range (rest.length + 1)).reverse.findSome? (fun k =>
      if (rest.take k).all (fun b => !(b == 10)) then matchVersionTail (rest.drop k)
      else none)
  else none

/-- `Bag._read_version`: read the first line, strip trailing whitespace and
match the version pattern; a non-match raises `ROSBagException` (the base
class, not the format error). -/
def read_version (f : Bytes) (pos : Nat) : Except PyErr (Nat × Nat) :=
  let (line, pos') := readline f pos
  match matchVersionLine (rstrip line) with
  | none => .error (.rosBag "rosbag does not support this version line")
  | some v => .ok (v, pos')

/-- What `Bag.open` leaves behind on success: the version and the serializer
it selected, with whatever `start_reading` populated. -/
inductive SerializerResult where
  | v103 (s : Serializer103State)
  | v102Indexed (topic_infos : List (Bytes × TopicInfo))
      (topic_indexes : List (Bytes × List IndexEntry102))
  | v102Unindexed
deriving DecidableEq, Repr

/-- `Bag.open(f, mode)` on an already-supplied byte source: read the version
line (closing the source and re-raising on a failure there, per the
`try`/`except` around `_read_version`), dispatch on the version — for 102
peeking the first record's opcode — and run the chosen serializer's
`start_reading`.  The `Bool` is whether the byte source was closed; only the
version-read failure path closes it. -/
def bagOpen (f : Bytes) (fuel : Nat) : Except PyErr (Nat × SerializerResult) × Bool :=
  match read_version f 0 with
  | .error e => (.error e, true)
  | .ok (version, pos) =>
    if version = 103 then
      match startReading103 f pos with
      | .error e => (.error e, false)
      | .ok s => (.ok (version, .v103 s), false)
    else if version = 102 then
      match (do
          let (header, _) ← read_record_header f pos
          read_uint8_field header (strB "op") : Except PyErr Nat) with
      | .error e => (.error e, false)
      | .ok op =>
        if op = OP_FILE_HEADER then
          match startReading102Indexed f pos fuel with
          | .error e => (.error e, false)
          | .ok (tis, tix) => (.ok (version, .v102Indexed tis tix), false)
        else (.ok (version, .v102Unindexed), false)
    else (.error (.rosBagFormat ("unknown bag version " ++ toString version)), false)

/-- The facade state `Bag.close` acts on: whether the byte source is closed,
and the serializer state (for v1.3, holding the decompressed-chunk cache). -/
structure BagFacadeState where
  fileClosed : Bool
  serializer : Serializer103State
deriving DecidableEq, Repr

/-- `Bag.close`: its body is `pass`. -/
def bagClose (s : BagFacadeState) : BagFacadeState := s

/-!  Byte-level encoders for concrete test bags (the inverse of the record
reader, used only to state concrete inputs). -/

/-- One byte, little endian. -/
def u8enc (n : Nat) : Bytes := [n % 256]

/-- Four bytes, little endian. -/
def u32enc (n : Nat) : Bytes :=
  [n % 256, n / 256 % 256, n / 65536 % 256, n / 16777216 % 256]

/-- Eight bytes, little endian. -/
def u64enc (n : Nat) : Bytes := u32enc (n % 4294967296) ++ u32enc (n / 4294967296)

/-- A time value: u32 seconds then u32 nanoseconds. -/
def timeenc (t : Nat × Nat) : Bytes := u32enc t.1 ++ u32enc t.2

/-- One header field: u32 size, then `name=value`. -/
def encField (n v : Bytes) : Bytes := u32enc (n.length + 1 + v.length) ++ n ++ [61] ++ v

/-- A packed header blob. -/
def encHeader (fields : List (Bytes × Bytes)) : Bytes :=
  (fields.map (fun p => encField p.1 p.2)).flatten

/-- A record: sized header blob then sized data blob. -/
def encRecord (fields : List (Bytes × Bytes)) (data : Bytes) : Bytes :=
  let hdr := encHeader fields
  u32enc hdr.length ++ hdr ++ u32enc data.length ++ data

/-- A message-definition record (opcode 0x01) with an empty data blob. -/
def msgDefRecordEnc (topic typ md5 defn : Bytes) : Bytes :=
  encRecord [(strB "op", u8enc 1), (strB "topic", topic), (strB "type", typ),
             (strB "md5", md5), (strB "def", defn)] []

/-- A message-data record (opcode 0x02). -/
def msgDataRecordEnc (data : Bytes) : Bytes := encRecord [(strB "op", u8enc 2)] data

/-- A chunk record (opcode 0x05): compression and uncompressed size in the
header, the stored payload as the data blob (whose u32 length is what the
reader takes as the compressed size). -/
def chunkRecordEnc (compression : Bytes) (uncompressedSize : Nat) (payload : Bytes) : Bytes :=
  encRecord [(strB "op", u8enc 5), (strB "compression", compression),
             (strB "size", u32enc uncompressedSize)] payload

/-- A v1.3 topic-index record (opcode 0x04): entries are time then u32
offset within the uncompressed chunk payload. -/
def topicIndexRecordEnc103 (topic : Bytes) (entries : List ((Nat × Nat) × Nat)) : Bytes :=
  encRecord [(strB "op", u8enc 4), (strB "ver", u32enc 1), (strB "topic", topic),
             (strB "count", u32enc entries.length)]
    ((entries.map (fun e => timeenc e.1 ++ u32enc e.2)).flatten)

/-- A v1.2 topic-index record (opcode 0x04): entries are time then u64
absolute file offset. -/
def topicIndexRecordEnc102 (topic : Bytes) (entries : List ((Nat × Nat) × Nat)) : Bytes :=
  encRecord [(strB "op", u8enc 4), (strB "ver", u32enc 1), (strB "topic", topic),
             (strB "count", u32enc entries.length)]
    ((entries.map (fun e => timeenc e.1 ++ u64enc e.2)).flatten)

/-- A chunk-info record (opcode 0x06, version 1). -/
def chunkInfoRecordEnc (cpos : Nat) (counts : List (Bytes × Nat)) : Bytes :=
  encRecord [(strB "op", u8enc 6), (strB "ver", u32enc 1), (strB "chunk_pos", u64enc cpos),
             (strB "start_time", timeenc (0, 0)), (strB "end_time", timeenc (0, 0)),
             (strB "count", u32enc counts.length)]
    ((counts.map (fun p => u32enc p.1.length ++ p.1 ++ u32enc p.2)).flatten)

/-- A v1.3 file-header record (opcode 0x03). -/
def fileHeaderRecordEnc103 (ip cc tc : Nat) : Bytes :=
  encRecord [(strB "op", u8enc 3), (strB "index_pos", u64enc ip),
             (strB "chunk_count", u32enc cc), (strB "topic_count", u32enc tc)] []

/-- A v1.2 file-header record (opcode 0x03) carrying only `index_pos`. -/
def fileHeaderRecordEnc102 (ip : Nat) : Bytes :=
  encRecord [(strB "op", u8enc 3), (strB "index_pos", u64enc ip)] []

/-!  A concrete well-formed v1.3 bag with two uncompressed chunks that both
contain the topic `/a`, one message each. -/

def topicA : Bytes := strB "/a"

def payloadA1 : Bytes := msgDataRecordEnc [42]
def payloadA2 : Bytes := msgDataRecordEnc [43]
def chunkA1 : Bytes := chunkRecordEnc (strB "none") payloadA1.length payloadA1
def chunkA2 : Bytes := chunkRecordEnc (strB "none") payloadA2.length payloadA2
def idxRecA1 : Bytes := topicIndexRecordEnc103 topicA [((0, 0), 0)]
def idxRecA2 : Bytes := topicIndexRecordEnc103 topicA [((1, 0), 0)]
def chunkA1pos : Nat := (fileHeaderRecordEnc103 0 2 1).length
def chunkA2pos : Nat := chunkA1pos + chunkA1.length + idxRecA1.length
def indexPosA : Nat := chunkA2pos + chunkA2.length + idxRecA2.length
def defRecA : Bytes := msgDefRecordEnc topicA (strB "p/I") (strB "0123") (strB "int8 v")

/-- The whole bag: file header, the two chunks each followed by their
topic-index record, then the index region (the topic's message definition
and the two chunk infos). -/
def bagA : Bytes :=
  fileHeaderRecordEnc103 indexPosA 2 1 ++ chunkA1 ++ idxRecA1 ++ chunkA2 ++ idxRecA2 ++
  defRecA ++ chunkInfoRecordEnc chunkA1pos [(topicA, 1)] ++
  chunkInfoRecordEnc chunkA2pos [(topicA, 1)]

/-- Index entries over all topics of `topic_indexes`. -/
def totalIndexEntries (s : Serializer103State) : Nat :=
  (s.topic_indexes.map (fun p => p.2.length)).sum

/-- The sum over all chunks of the per-topic counts of their `ChunkInfo`. -/
def totalChunkTopicCounts (s : Serializer103State) : Nat :=
  (s.chunk_infos.map (fun ci => (ci.topic_counts.map (·.2)).sum)).sum

/-!  A concrete well-formed v1.2 indexed bag: a file header, one message
definition and one message-data record for `/a`, then the index region (one
topic-index record whose single entry points at the message definition)
running to the end of the file. -/

def tiA : TopicInfo := ⟨topicA, strB "p/I", strB "0123", strB "int8 v"⟩

def defRecB : Bytes := msgDefRecordEnc topicA (strB "p/I") (strB "0123") (strB "int8 v")
def dataRecB : Bytes := msgDataRecordEnc [7]
def defBpos : Nat := (fileHeaderRecordEnc102 0).length
def dataBpos : Nat := defBpos + defRecB.length
def indexPosB : Nat := dataBpos + dataRecB.length

def bagB : Bytes :=
  fileHeaderRecordEnc102 indexPosB ++ defRecB ++ dataRecB ++
  topicIndexRecordEnc102 topicA [((0, 0), defBpos)]

/-!  Concrete v1.3 serializer states for retrieval: a compressed chunk whose
stored payload sits at position 50 of a small file, with a constant
decompressor standing in for the external bz2 library. -/

/-- A file whose bytes 50..51 are the stored (compressed) chunk payload. -/
def fileC : Bytes := List.replicate 50 0 ++ [9, 9]

/-- The decompressed chunk payload: one message-definition record followed
by one message-data record. -/
def chunkPayloadC : Bytes := defRecB ++ msgDataRecordEnc [5]

/-- A concrete decompressor: the external bz2 library, modelled on this one
input. -/
def dC : Bytes → Except PyErr Bytes := fun _ => .ok chunkPayloadC

/-- A v1.3 state whose chunk table has one compressed chunk at position 100
(compression `bz2`, stored payload `[9, 9]` at file position 50). -/
def stateC : Serializer103State :=
  { topic_infos := [(topicA, tiA)]
    topic_indexes := [(topicA, [⟨(0, 0), 100, defRecB.length⟩])]
    chunk_infos := []
    chunk_headers := [(100, ⟨strB "bz2", 2, chunkPayloadC.length, 50⟩)]
    message_types := []
    decompressed_chunk_pos := none
    decompressed_chunk := []
    filepos := 0 }

/-- The index entry used against `stateC`: inside the decompressed payload,
its offset points at the message-data record (after the definition). -/
def entryC : IndexEntry103 := ⟨(0, 0), 100, defRecB.length⟩

/-- The same state with the chunk's compression labelled `weird` (a value
outside `none`, `bz2`, `zlib`). -/
def stateW : Serializer103State :=
  { stateC with chunk_headers := [(100, ⟨strB "weird", 2, chunkPayloadC.length, 50⟩)] }

/-!  Concrete v1.2 unindexed streams. -/

/-- A stream of one message definition and one message-data record, ending
exactly at a record-header boundary. -/
def streamClean : Bytes := defRecB ++ msgDataRecordEnc [7]

/-- A file truncated in the middle of a record header: the header blob
claims 5 bytes but only 2 are present. -/
def streamHeaderTrunc : Bytes := u32enc 5 ++ [1, 2]

/-- A file truncated in a record's data blob: a complete message-definition
header whose data blob claims 10 bytes but has none. -/
def streamDataTrunc : Bytes :=
  (fun hdr => u32enc hdr.length ++ hdr ++ u32enc 10)
    (encHeader [(strB "op", u8enc 1), (strB "topic", topicA), (strB "type", strB "p/I"),
                (strB "md5", strB "0123"), (strB "def", strB "int8 v")])

/-- A stream of a single message-definition record. -/
def streamDefOnly : Bytes := defRecB

/-- The message retrieved from `stateC`'s chunk. -/
def msgC : Msg := ⟨strB "p/I", [5]⟩

/-- The state after one retrieval from `stateC`: the cache holds chunk 100's
decompressed payload and the datatype was memoized. -/
def stateCafter : Serializer103State :=
  { stateC with decompressed_chunk_pos := some 100
                decompressed_chunk := chunkPayloadC
                message_types := [strB "p/I"]
                filepos := 52 }

/-- A record whose header carries only the `op` field (all the retrieval
skip loop ever reads). -/
def opOnlyRec (b : Nat) (data : Bytes) : Bytes := encRecord [(strB "op", u8enc b)] data

/-- A cache state the v1.3 reader itself can produce: when the slot holds a
chunk position, that chunk's header is in the table, its stored payload
reads back from the file, and the decompressor maps those stored bytes to
the cached bytes. -/
def cacheOK (d : Bytes → Except PyErr Bytes) (f : Bytes) (s : Serializer103State) : Prop :=
  ∀ p, s.decompressed_chunk_pos = some p →
    ∃ ch comp fp,
      ndictGet s.chunk_headers p = some ch ∧
      read_exact f ch.data_pos ch.compressed_size = .ok (comp, fp) ∧
      d comp = .ok s.decompressed_chunk

/-- The cache fields of a freshly opened bag. -/
def clearCache (s : Serializer103State) : Serializer103State :=
  { s with decompressed_chunk_pos := none, decompressed_chunk := [] }

/-- Stated from the spec's sentence about the banner, amended: `#ROS`, any
tag (no newline), then ` V`, a decimal digit, any single non-newline byte,
a decimal digit, and anything after.  The byte between the two digits is
what the claim requires to be a literal dot. -/
def bannerMatches (line : Bytes) : Prop :=
  ∃ tag d1 c d2 rest,
    line = strB "#ROS" ++ tag ++ [32, 86] ++ [d1, c, d2] ++ rest ∧
    isDigitByte d1 ∧ isDigitByte d2 ∧ c ≠ 10 ∧ (10 ∉ tag)

/-- The message computed by `read_message_data_record103`, as a function of
the inputs it actually depends on: the file, the looked-up chunk header, the
cache contents applicable to the entry's chunk (`some` bytes on a hit,
`none` otherwise), and the topic table.  Used to state and prove that
retrieval ignores the rest of the state. -/
def retrievedMsg (d : Bytes → Except PyErr Bytes) (f : Bytes) (fuel : Nat)
    (ch : ChunkHeader) (cache : Option Bytes) (tis : List (Bytes × TopicInfo))
    (topic : Bytes) (e : IndexEntry103) : Except PyErr Msg := do
  let (src, spos) ←
    (if ch.compression = strB "none" then .ok (f, ch.data_pos + e.offset)
     else match cache with
       | some bytes => .ok (bytes, e.offset)
       | none => do
           let (compressed, _) ← read_exact f ch.data_pos ch.compressed_size
           let dec ← d compressed
           .ok (dec, e.offset) : Except PyErr (Bytes × Nat))
  let pos2 ← skipMsgDefsToMsgData src fuel spos
  match dictGet tis topic with
  | none => .error .keyError
  | some ti => do
    let (record_data, _) ← read_record_data src pos2
    .ok ⟨ti.datatype, record_data⟩

/-!  ## Theorems -/

/-- C1: on the well-formed two-chunk bag `bagA`, whose chunk infos record
one `/a` message in each chunk (two in total), `start_reading` leaves
`topic_indexes` holding only the second chunk's index record: the per-chunk
records are not concatenated (`topic_indexes[topic] = index` overwrites),
so the total number of index entries is 1 while the chunk infos sum to 2. -/
theorem c1_v103_topic_index_not_concatenated :
    (startReading103 bagA 0).map (fun s => s.topic_indexes) =
      .ok [(topicA, [⟨(1, 0), chunkA2pos, 0⟩])] ∧
    (startReading103 bagA 0).map totalIndexEntries = .ok 1 ∧
    (startReading103 bagA 0).map totalChunkTopicCounts = .ok 2 := by
  refine ⟨?_, ?_, ?_⟩ <;> rfl

/-- C2: on the well-formed v1.2 indexed bag `bagB` (whose index region holds
one valid topic-index record and then ends at end of file), `start_reading`
does not succeed: the `while True` loop has no termination condition, so
after consuming the index region the next header read fails at end of file
and the exception propagates out of `open`. -/
theorem c2_v102_indexed_start_reading_always_raises :
    (read_topic_index_record102 bagB indexPosB).map (fun r => (r.1.1, r.1.2.length)) =
      .ok (topicA, 1) ∧
    startReading102Indexed bagB 0 bagB.length = .error .structError := by
  exact ⟨rfl, rfl⟩

/-- C3 counterexample: retrieval from a chunk whose `compression` field is
`weird` — none of `none`, `bz2`, `zlib` — succeeds (the stored bytes are fed
to bz2.decompress, which here yields a valid payload); no format error is
raised at retrieval time, contradicting the claim. -/
theorem c3_unknown_compression_no_format_error :
    (read_message_data_record103 dC fileC 100 stateW topicA entryC).map (·.1) =
      .ok msgC := by
  rfl

/-- C4 counterexample: on the banner `#ROSBAG V9.9\n`, `open` raises the
FormatError naming version 909 but the byte source is left open (`false`),
contradicting the claim that it is closed before `open` returns. -/
theorem c4_unknown_version_source_left_open :
    bagOpen (strB "#ROSBAG V9.9\n") 10 =
      (.error (.rosBagFormat "unknown bag version 909"), false) := by
  rfl

/-- C7 counterexample: a file truncated in the middle of a record header
(the header blob claims 5 bytes, 2 are present) makes `get_messages` end the
sequence cleanly — no FormatError, nothing closed — because the bare
`except:` around the header read swallows the format error, contradicting
the claim. -/
theorem c7_mid_header_truncation_silently_ends :
    getMessages102U streamHeaderTrunc 10 0 [] [] none [] = ([], none, []) := by
  rfl

/-- The deserializer factory returns the topic's datatype. -/
theorem get_message_type_fst (memo : List Bytes) (ti : TopicInfo) :
    (get_message_type memo ti).1 = ti.datatype := by
  unfold get_message_type
  split <;> rfl

/-- Bind on an `ok` value. -/
theorem ebind_ok {α β : Type} (a : α) (g : α → Except PyErr β) :
    (Except.ok a : Except PyErr α) >>= g = g a := rfl

/-- Bind on an `error` value. -/
theorem ebind_error {α β : Type} (err : PyErr) (g : α → Except PyErr β) :
    (Except.error err : Except PyErr α) >>= g = Except.error err := rfl

/-- Map on an `ok` value. -/
theorem emap_ok {α β : Type} (g : α → β) (a : α) :
    Except.map g (Except.ok a : Except PyErr α) = .ok (g a) := rfl

/-- Map on an `error` value. -/
theorem emap_error {α β : Type} (g : α → β) (err : PyErr) :
    Except.map g (Except.error err : Except PyErr α) = .error err := rfl

/-- `read_message_data_record103` computes its message exactly as
`retrievedMsg` does, from the looked-up chunk header, the cache slot
applicable to the entry's chunk and the topic table alone. -/
theorem read_message_data_record103_msg (d : Bytes → Except PyErr Bytes) (f : Bytes)
    (fuel : Nat) (s : Serializer103State) (topic : Bytes) (e : IndexEntry103)
    (ch : ChunkHeader) (hch : ndictGet s.chunk_headers e.chunk_pos = some ch) :
    (read_message_data_record103 d f fuel s topic e).map (·.1) =
      retrievedMsg d f fuel ch
        (if s.decompressed_chunk_pos = some e.chunk_pos then some s.decompressed_chunk
         else none)
        s.topic_infos topic e := by
  unfold read_message_data_record103 retrievedMsg
  rw [hch]
  dsimp only
  by_cases hc : ch.compression = strB "none"
  · rw [if_pos hc, if_pos hc]
    simp only [ebind_ok]
    cases hskip : skipMsgDefsToMsgData f fuel (ch.data_pos + e.offset) with
    | error err => simp [ebind_error, emap_error, hskip]
    | ok pos2 =>
      simp only [hskip, ebind_ok]
      cases hti : dictGet s.topic_infos topic with
      | none => simp [emap_error, hti]
      | some ti =>
        simp only [hti]
        cases hrd : read_record_data f pos2 with
        | error err => simp [ebind_error, emap_error, hrd]
        | ok rd => simp [hrd, ebind_ok, emap_ok, get_message_type_fst]
  · rw [if_neg hc, if_neg hc]
    by_cases hhit : s.decompressed_chunk_pos = some e.chunk_pos
    · rw [if_pos hhit, if_pos hhit]
      simp only [ebind_ok]
      cases hskip : skipMsgDefsToMsgData s.decompressed_chunk fuel e.offset with
      | error err => simp [ebind_error, emap_error, hskip]
      | ok pos2 =>
        simp only [hskip, ebind_ok]
        cases hti : dictGet s.topic_infos topic with
        | none => simp [emap_error, hti]
        | some ti =>
          simp only [hti]
          cases hrd : read_record_data s.decompressed_chunk pos2 with
          | error err => simp [ebind_error, emap_error, hrd]
          | ok rd => simp [hrd, ebind_ok, emap_ok, get_message_type_fst]
    · rw [if_neg hhit, if_neg hhit]
      cases hre : read_exact f ch.data_pos ch.compressed_size with
      | error err => simp [ebind_error, emap_error, hre]
      | ok cp =>
        simp only [hre, ebind_ok]
        cases hd : d cp.1 with
        | error err => simp [ebind_error, emap_error, hd]
        | ok dec =>
          simp only [hd, ebind_ok]
          cases hskip : skipMsgDefsToMsgData dec fuel e.offset with
          | error err => simp [ebind_error, emap_error, hskip]
          | ok pos2 =>
            simp only [hskip, ebind_ok]
            cases hti : dictGet s.topic_infos topic with
            | none => simp [emap_error, hti]
            | some ti =>
              simp only [hti]
              cases hrd : read_record_data dec pos2 with
              | error err => simp [ebind_error, emap_error, hrd]
              | ok rd => simp [hrd, ebind_ok, emap_ok, get_message_type_fst]

/-- A successful `read_message_data_record103` leaves every parsed table
unchanged, and its cache is either untouched (compression `none`, or a
cache hit) or freshly installed from the chunk's stored payload. -/
theorem read_message_data_record103_ok (d : Bytes → Except PyErr Bytes) (f : Bytes)
    (fuel : Nat) (s : Serializer103State) (topic : Bytes) (e : IndexEntry103)
    (m : Msg) (s' : Serializer103State)
    (h : read_message_data_record103 d f fuel s topic e = .ok (m, s')) :
    s'.topic_infos = s.topic_infos ∧ s'.topic_indexes = s.topic_indexes ∧
    s'.chunk_infos = s.chunk_infos ∧ s'.chunk_headers = s.chunk_headers ∧
    ((s'.decompressed_chunk_pos = s.decompressed_chunk_pos ∧
      s'.decompressed_chunk = s.decompressed_chunk) ∨
     (∃ ch compressed fp,
        ndictGet s.chunk_headers e.chunk_pos = some ch ∧
        read_exact f ch.data_pos ch.compressed_size = .ok (compressed, fp) ∧
        d compressed = .ok s'.decompressed_chunk ∧
        s'.decompressed_chunk_pos = some e.chunk_pos)) := by
  unfold read_message_data_record103 at h
  cases hch : ndictGet s.chunk_headers e.chunk_pos with
  | none => rw [hch] at h; exact absurd h (by simp)
  | some ch =>
    rw [hch] at h
    dsimp only at h
    by_cases hc : ch.compression = strB "none"
    · rw [if_pos hc] at h
      simp only [ebind_ok] at h
      cases hskip : skipMsgDefsToMsgData f fuel (ch.data_pos + e.offset) with
      | error err => rw [hskip] at h; exact absurd h (by simp [ebind_error])
      | ok pos2 =>
        rw [hskip] at h
        simp only [ebind_ok] at h
        cases hti : dictGet s.topic_infos topic with
        | none => rw [hti] at h; exact absurd h (by simp)
        | some ti =>
          rw [hti] at h
          cases hrd : read_record_data f pos2 with
          | error err => rw [hrd] at h; exact absurd h (by simp [ebind_error])
          | ok rd =>
            rw [hrd] at h
            simp only [ebind_ok] at h
            cases h
            exact ⟨rfl, rfl, rfl, rfl, Or.inl ⟨rfl, rfl⟩⟩
    · rw [if_neg hc] at h
      by_cases hhit : s.decompressed_chunk_pos = some e.chunk_pos
      · rw [if_pos hhit] at h
        simp only [ebind_ok] at h
        cases hskip : skipMsgDefsToMsgData s.decompressed_chunk fuel e.offset with
        | error err => rw [hskip] at h; exact absurd h (by simp [ebind_error])
        | ok pos2 =>
          rw [hskip] at h
          simp only [ebind_ok] at h
          cases hti : dictGet s.topic_infos topic with
          | none => rw [hti] at h; exact absurd h (by simp)
          | some ti =>
            rw [hti] at h
            cases hrd : read_record_data s.decompressed_chunk pos2 with
            | error err => rw [hrd] at h; exact absurd h (by simp [ebind_error])
            | ok rd =>
              rw [hrd] at h
              simp only [ebind_ok] at h
              cases h
              exact ⟨rfl, rfl, rfl, rfl, Or.inl ⟨rfl, rfl⟩⟩
      · rw [if_neg hhit] at h
        cases hre : read_exact f ch.data_pos ch.compressed_size with
        | error err => rw [hre] at h; exact absurd h (by simp [ebind_error])
        | ok cp =>
          rw [hre] at h
          simp only [ebind_ok] at h
          cases hd : d cp.1 with
          | error err => rw [hd] at h; exact absurd h (by simp [ebind_error])
          | ok dec =>
            rw [hd] at h
            simp only [ebind_ok] at h
            cases hskip : skipMsgDefsToMsgData dec fuel e.offset with
            | error err => rw [hskip] at h; exact absurd h (by simp [ebind_error])
            | ok pos2 =>
              rw [hskip] at h
              simp only [ebind_ok] at h
              cases hti : dictGet s.topic_infos topic with
              | none => rw [hti] at h; exact absurd h (by simp)
              | some ti =>
                rw [hti] at h
                cases hrd : read_record_data dec pos2 with
                | error err => rw [hrd] at h; exact absurd h (by simp [ebind_error])
                | ok rd =>
                  rw [hrd] at h
                  simp only [ebind_ok] at h
                  cases h
                  refine ⟨rfl, rfl, rfl, rfl, Or.inr ⟨ch, cp.1, cp.2, rfl, ?_, hd, rfl⟩⟩
                  simpa using hre

/-- A successful retrieval passes through a chunk-header lookup. -/
theorem read_message_data_record103_chunk (d : Bytes → Except PyErr Bytes) (f : Bytes)
    (fuel : Nat) (s : Serializer103State) (topic : Bytes) (e : IndexEntry103)
    (m : Msg) (s' : Serializer103State)
    (h : read_message_data_record103 d f fuel s topic e = .ok (m, s')) :
    ∃ ch, ndictGet s.chunk_headers e.chunk_pos = some ch := by
  cases hch : ndictGet s.chunk_headers e.chunk_pos with
  | none =>
    unfold read_message_data_record103 at h
    rw [hch] at h
    exact absurd h (by simp)
  | some ch => exact ⟨ch, rfl⟩

/-- The compression label plays no role in the retrieved message beyond the
test against `none`. -/
theorem retrievedMsg_comp (d : Bytes → Except PyErr Bytes) (f : Bytes) (fuel : Nat)
    (ch : ChunkHeader) (c2 : Bytes) (cache : Option Bytes) (tis : List (Bytes × TopicInfo))
    (topic : Bytes) (e : IndexEntry103)
    (h1 : ch.compression ≠ strB "none") (h2 : c2 ≠ strB "none") :
    retrievedMsg d f fuel { ch with compression := c2 } cache tis topic e =
      retrievedMsg d f fuel ch cache tis topic e := by
  unfold retrievedMsg
  rw [if_neg (show ¬({ ch with compression := c2 } : ChunkHeader).compression = strB "none" from h2),
    if_neg h1]

/-- A cache slot holding the decompression of the chunk's stored payload is
interchangeable with an empty slot. -/
theorem retrievedMsg_cache (d : Bytes → Except PyErr Bytes) (f : Bytes) (fuel : Nat)
    (ch : ChunkHeader) (cbytes : Bytes) (tis : List (Bytes × TopicInfo))
    (topic : Bytes) (e : IndexEntry103)
    (hcons : ∃ comp fp, read_exact f ch.data_pos ch.compressed_size = .ok (comp, fp) ∧
      d comp = .ok cbytes) :
    retrievedMsg d f fuel ch (some cbytes) tis topic e =
      retrievedMsg d f fuel ch none tis topic e := by
  obtain ⟨comp, fp, hre, hd⟩ := hcons
  unfold retrievedMsg
  by_cases hc : ch.compression = strB "none"
  · rw [if_pos hc, if_pos hc]
  · rw [if_neg hc, if_neg hc]
    rw [hre]
    simp only [ebind_ok]
    rw [hd]
    simp only [ebind_ok]

/-- C5: v1.3 retrieval is independent of the decompressed-chunk cache and
idempotent.  For any reachable cache state (`cacheOK`: the slot, when
filled, holds the decompression of its chunk's stored payload), a
successful read of entry `e` yields the same message as a read from the
freshly-opened state with an empty cache, and reading `e` again right after
yields the same message once more. -/
theorem c5_retrieval_cache_independent (d : Bytes → Except PyErr Bytes) (f : Bytes)
    (fuel : Nat) (s : Serializer103State) (topic : Bytes) (e : IndexEntry103)
    (m : Msg) (s' : Serializer103State)
    (hok : cacheOK d f s)
    (h : read_message_data_record103 d f fuel s topic e = .ok (m, s')) :
    (read_message_data_record103 d f fuel (clearCache s) topic e).map (·.1) = .ok m ∧
    ∃ s2, read_message_data_record103 d f fuel s' topic e = .ok (m, s2) := by
  obtain ⟨ch, hch⟩ := read_message_data_record103_chunk d f fuel s topic e m s' h
  have hmsg : (read_message_data_record103 d f fuel s topic e).map (·.1) =
      retrievedMsg d f fuel ch
        (if s.decompressed_chunk_pos = some e.chunk_pos then some s.decompressed_chunk
         else none) s.topic_infos topic e :=
    read_message_data_record103_msg d f fuel s topic e ch hch
  rw [h] at hmsg
  have hnone : retrievedMsg d f fuel ch none s.topic_infos topic e = .ok m := by
    by_cases hhit : s.decompressed_chunk_pos = some e.chunk_pos
    · rw [if_pos hhit] at hmsg
      obtain ⟨ch2, comp, fp, hch2, hre, hd⟩ := hok e.chunk_pos hhit
      rw [hch] at hch2
      cases hch2
      rw [← retrievedMsg_cache d f fuel ch s.decompressed_chunk s.topic_infos topic e
        ⟨comp, fp, hre, hd⟩]
      exact hmsg.symm
    · rw [if_neg hhit] at hmsg
      exact hmsg.symm
  obtain ⟨ht1, ht2, ht3, ht4, hcache⟩ :=
    read_message_data_record103_ok d f fuel s topic e m s' h
  constructor
  · have hclear : (read_message_data_record103 d f fuel (clearCache s) topic e).map (·.1) =
        retrievedMsg d f fuel ch
          (if (clearCache s).decompressed_chunk_pos = some e.chunk_pos then
            some (clearCache s).decompressed_chunk else none)
          (clearCache s).topic_infos topic e :=
      read_message_data_record103_msg d f fuel (clearCache s) topic e ch hch
    rw [hclear]
    show retrievedMsg d f fuel ch
      (if (none : Option Nat) = some e.chunk_pos then some ([] : Bytes) else none)
      s.topic_infos topic e = .ok m
    rw [if_neg (by simp)]
    exact hnone
  · have hch' : ndictGet s'.chunk_headers e.chunk_pos = some ch := by rw [ht4]; exact hch
    have hmsg' : (read_message_data_record103 d f fuel s' topic e).map (·.1) =
        retrievedMsg d f fuel ch
          (if s'.decompressed_chunk_pos = some e.chunk_pos then some s'.decompressed_chunk
           else none) s'.topic_infos topic e :=
      read_message_data_record103_msg d f fuel s' topic e ch hch'
    have hval : (read_message_data_record103 d f fuel s' topic e).map (·.1) = .ok m := by
      rw [hmsg', ht1]
      cases hcache with
      | inl hsame =>
        rw [hsame.1, hsame.2]
        rw [← hmsg]
        rfl
      | inr hfresh =>
        obtain ⟨ch2, comp, fp, hch2, hre, hd, hpos⟩ := hfresh
        rw [hch] at hch2
        cases hch2
        rw [hpos, if_pos rfl]
        rw [retrievedMsg_cache d f fuel ch s'.decompressed_chunk s.topic_infos topic e
          ⟨comp, fp, hre, hd⟩]
        exact hnone
    cases hr : read_message_data_record103 d f fuel s' topic e with
    | error err => rw [hr] at hval; exact absurd hval (by simp [emap_error])
    | ok pr =>
      obtain ⟨pm, ps⟩ := pr
      rw [hr] at hval
      rw [emap_ok] at hval
      dsimp only at hval
      cases hval
      exact ⟨ps, rfl⟩

/-- Witness for C5: on the concrete compressed chunk of `stateC` (whose
fresh cache is trivially consistent), reading `entryC` from the cleared
state yields `msgC`, and a second read from the post-read state
`stateCafter` yields `msgC` again. -/
theorem c5_retrieval_cache_independent_witness :
    (read_message_data_record103 dC fileC 100 (clearCache stateC) topicA entryC).map (·.1) =
      .ok msgC ∧
    ∃ s2, read_message_data_record103 dC fileC 100 stateCafter topicA entryC =
      .ok (msgC, s2) :=
  c5_retrieval_cache_independent dC fileC 100 stateC topicA entryC msgC stateCafter
    (fun _ hp => nomatch hp) rfl

/-- C3 (amended): the chunk's `compression` field is only ever compared
against `none`; retrieval treats every other label — `bz2`, `zlib`, or any
unknown value — identically, feeding the stored bytes to bz2.decompress,
and raises no format error for unknown labels.  Relabelling a non-`none`
chunk with any other non-`none` compression value leaves the retrieved
message unchanged. -/
theorem c3_compression_label_not_dispatched (d : Bytes → Except PyErr Bytes) (f : Bytes)
    (fuel : Nat) (s : Serializer103State) (topic : Bytes) (e : IndexEntry103)
    (ch : ChunkHeader) (c2 : Bytes) (s2 : Serializer103State)
    (hch : ndictGet s.chunk_headers e.chunk_pos = some ch)
    (h1 : ch.compression ≠ strB "none") (h2 : c2 ≠ strB "none")
    (hs2 : s2 = { s with chunk_headers := [(e.chunk_pos, { ch with compression := c2 })] }) :
    (read_message_data_record103 d f fuel s2 topic e).map (·.1) =
      (read_message_data_record103 d f fuel s topic e).map (·.1) := by
  subst hs2
  rw [read_message_data_record103_msg d f fuel _ topic e { ch with compression := c2 }
      (by simp [ndictGet]),
    read_message_data_record103_msg d f fuel s topic e ch hch]
  dsimp only
  exact retrievedMsg_comp d f fuel ch c2
    (if s.decompressed_chunk_pos = some e.chunk_pos then some s.decompressed_chunk else none)
    s.topic_infos topic e h1 h2

/-- Witness for C3: relabelling `stateC`'s bz2 chunk as `weird` (the state
`stateW`) leaves the retrieved message unchanged. -/
theorem c3_compression_label_not_dispatched_witness :
    (read_message_data_record103 dC fileC 100 stateW topicA entryC).map (·.1) =
      (read_message_data_record103 dC fileC 100 stateC topicA entryC).map (·.1) :=
  c3_compression_label_not_dispatched dC fileC 100 stateC topicA entryC
    ⟨strB "bz2", 2, chunkPayloadC.length, 50⟩ (strB "weird") stateW
    rfl (by decide) (by decide) rfl

/-- Each step of the v1.3 per-topic entry loop preserves the parsed tables. -/
theorem getMessagesEntries103_preserves (d : Bytes → Except PyErr Bytes) (f : Bytes)
    (fuel : Nat) (entries : List IndexEntry103) :
    ∀ (topic : Bytes) (s : Serializer103State) (acc msgs : List Msg)
      (s' : Serializer103State),
      getMessagesEntries103 d f fuel entries topic s acc = .ok (msgs, s') →
      s'.topic_infos = s.topic_infos ∧ s'.topic_indexes = s.topic_indexes ∧
      s'.chunk_infos = s.chunk_infos ∧ s'.chunk_headers = s.chunk_headers := by
  induction entries with
  | nil =>
    intro topic s acc msgs s' h
    unfold getMessagesEntries103 at h
    cases h
    exact ⟨rfl, rfl, rfl, rfl⟩
  | cons e rest ih =>
    intro topic s acc msgs s' h
    unfold getMessagesEntries103 at h
    cases hr : read_message_data_record103 d f fuel s topic e with
    | error err => rw [hr] at h; exact absurd h (by simp [ebind_error])
    | ok pr =>
      obtain ⟨m1, s1⟩ := pr
      rw [hr] at h
      simp only [ebind_ok] at h
      have t1 := read_message_data_record103_ok d f fuel s topic e m1 s1 hr
      have t2 := ih topic s1 (acc ++ [m1]) msgs s' h
      exact ⟨t2.1.trans t1.1, t2.2.1.trans t1.2.1, t2.2.2.1.trans t1.2.2.1,
             t2.2.2.2.trans t1.2.2.2.1⟩

/-- The v1.3 topic loop preserves the parsed tables. -/
theorem getMessagesTopics103_preserves (d : Bytes → Except PyErr Bytes) (f : Bytes)
    (fuel : Nat) (items : List (Bytes × List IndexEntry103)) :
    ∀ (s : Serializer103State) (acc msgs : List Msg) (s' : Serializer103State),
      getMessagesTopics103 d f fuel items s acc = .ok (msgs, s') →
      s'.topic_infos = s.topic_infos ∧ s'.topic_indexes = s.topic_indexes ∧
      s'.chunk_infos = s.chunk_infos ∧ s'.chunk_headers = s.chunk_headers := by
  induction items with
  | nil =>
    intro s acc msgs s' h
    unfold getMessagesTopics103 at h
    cases h
    exact ⟨rfl, rfl, rfl, rfl⟩
  | cons item rest ih =>
    intro s acc msgs s' h
    obtain ⟨topic, entries⟩ := item
    unfold getMessagesTopics103 at h
    cases hr : getMessagesEntries103 d f fuel entries topic s acc with
    | error err => rw [hr] at h; exact absurd h (by simp [ebind_error])
    | ok pr =>
      obtain ⟨acc1, s1⟩ := pr
      rw [hr] at h
      simp only [ebind_ok] at h
      have t1 := getMessagesEntries103_preserves d f fuel entries topic s acc acc1 s1 hr
      have t2 := ih s1 acc1 msgs s' h
      exact ⟨t2.1.trans t1.1, t2.2.1.trans t1.2.1, t2.2.2.1.trans t1.2.2.1,
             t2.2.2.2.trans t1.2.2.2⟩

/-- C9 (amended): for a v1.3 bag, iteration via `get_messages` leaves the
parsed tables `topic_infos`, `topic_indexes`, `chunk_infos` and
`chunk_headers` unchanged; the only state it mutates is the
decompressed-chunk cache, the per-datatype deserializer memo and the read
position.  (For the v1.2 unindexed reader the claim fails: see the
counterexample.) -/
theorem c9_v103_iteration_preserves_tables (d : Bytes → Except PyErr Bytes) (f : Bytes)
    (fuel : Nat) (s : Serializer103State) (msgs : List Msg) (s' : Serializer103State)
    (h : get_messages103 d f fuel s = .ok (msgs, s')) :
    s'.topic_infos = s.topic_infos ∧ s'.topic_indexes = s.topic_indexes ∧
    s'.chunk_infos = s.chunk_infos ∧ s'.chunk_headers = s.chunk_headers := by
  unfold get_messages103 at h
  exact getMessagesTopics103_preserves d f fuel s.topic_indexes s [] msgs s' h

/-- Witness for C9: iterating the concrete state `stateC` yields `msgC` and
the state `stateCafter`, whose four parsed tables equal `stateC`'s. -/
theorem c9_v103_iteration_preserves_tables_witness :
    stateCafter.topic_infos = stateC.topic_infos ∧
    stateCafter.topic_indexes = stateC.topic_indexes ∧
    stateCafter.chunk_infos = stateC.chunk_infos ∧
    stateCafter.chunk_headers = stateC.chunk_headers :=
  c9_v103_iteration_preserves_tables dC fileC 100 stateC [msgC] stateCafter rfl

/-- Reading `n` bytes where the remainder begins with an `n`-byte block
yields that block. -/
theorem fread_drop (f : Bytes) (pos n : Nat) (x rest : Bytes) (hx : x.length = n)
    (hdrop : f.drop pos = x ++ rest) : fread f pos n = (x, pos + n) := by
  unfold fread
  rw [hdrop, ← hx, List.take_left]

/-- Advancing the position past a parsed block leaves the rest. -/
theorem drop_next (f : Bytes) (pos : Nat) (x rest : Bytes)
    (hdrop : f.drop pos = x ++ rest) : f.drop (pos + x.length) = rest := by
  have h1 : f.drop (pos + x.length) = (f.drop pos).drop x.length := by
    rw [List.drop_drop, Nat.add_comm]
  rw [h1, hdrop, List.drop_left]

/-- A u32 read at an encoded u32. -/
theorem read_uint32_at (f : Bytes) (pos k : Nat) (rest : Bytes)
    (hdrop : f.drop pos = u32enc k ++ rest) (hk : k < 4294967296) :
    read_uint32 f pos = .ok (k, pos + 4) := by
  unfold read_uint32
  rw [fread_drop f pos 4 (u32enc k) rest (by simp [u32enc]) hdrop]
  show Except.ok (k % 256 + 256 * (k / 256 % 256) + 65536 * (k / 65536 % 256) +
      16777216 * (k / 16777216 % 256), pos + 4) = _
  have hdec : k % 256 + 256 * (k / 256 % 256) + 65536 * (k / 65536 % 256) +
      16777216 * (k / 16777216 % 256) = k := by omega
  rw [hdec]

/-- An exact read of a block the remainder begins with. -/
theorem read_exact_at (f : Bytes) (pos : Nat) (x rest : Bytes)
    (hdrop : f.drop pos = x ++ rest) :
    read_exact f pos x.length = .ok (x, pos + x.length) := by
  unfold read_exact
  rw [fread_drop f pos x.length x rest rfl hdrop]
  simp

/-- A sized-blob read at an encoded sized blob. -/
theorem read_sized_at (f : Bytes) (pos : Nat) (x rest : Bytes)
    (hdrop : f.drop pos = u32enc x.length ++ x ++ rest) (hx : x.length < 4294967296) :
    read_sized f pos = .ok (x, pos + 4 + x.length) := by
  unfold read_sized
  rw [read_uint32_at f pos x.length (x ++ rest) (by rw [hdrop, List.append_assoc]) hx]
  simp only [ebind_ok]
  have h4 : f.drop (pos + 4) = x ++ rest := by
    have := drop_next f pos (u32enc x.length) (x ++ rest)
      (by rw [hdrop, List.append_assoc])
    simpa [u32enc] using this
  exact read_exact_at f (pos + 4) x rest h4

/-- A record-data read at an encoded sized blob. -/
theorem read_record_data_at (f : Bytes) (pos : Nat) (x rest : Bytes)
    (hdrop : f.drop pos = u32enc x.length ++ x ++ rest) (hx : x.length < 4294967296) :
    read_record_data f pos = .ok (x, pos + 4 + x.length) := by
  unfold read_record_data
  rw [read_sized_at f pos x rest hdrop hx]

/-- The bytes of an op-only record, written out. -/
theorem opOnlyRec_eq (b : Nat) (data : Bytes) :
    opOnlyRec b data =
      [8, 0, 0, 0] ++ [4, 0, 0, 0, 111, 112, 61, b % 256] ++ u32enc data.length ++ data := by
  have hs : strB "op" = [111, 112] := rfl
  simp [opOnlyRec, encRecord, encHeader, encField, u8enc, u32enc, hs]

/-- The length of an op-only record. -/
theorem opOnlyRec_length (b : Nat) (data : Bytes) :
    (opOnlyRec b data).length = 16 + data.length := by
  rw [opOnlyRec_eq]
  simp [u32enc]
  omega

/-- A record-header read at an op-only record parses its one `op` field and
lands at the record's data blob. -/
theorem read_record_header_op (f : Bytes) (pos b : Nat) (data rest : Bytes)
    (hdrop : f.drop pos = opOnlyRec b data ++ rest) (hb : b < 256) :
    read_record_header f pos = .ok ([(strB "op", [b])], pos + 12) := by
  unfold read_record_header
  have hmod : b % 256 = b := Nat.mod_eq_of_lt hb
  have h2 : f.drop pos =
      u32enc ([4, 0, 0, 0, 111, 112, 61, b] : Bytes).length ++
        [4, 0, 0, 0, 111, 112, 61, b] ++ (u32enc data.length ++ data ++ rest) := by
    rw [hdrop, opOnlyRec_eq, hmod]
    simp [u32enc, List.append_assoc]
  rw [read_sized_at f pos [4, 0, 0, 0, 111, 112, 61, b]
      (u32enc data.length ++ data ++ rest) h2 (by norm_num)]
  have h12 : pos + 4 + 8 = pos + 12 := by omega
  simp only [ebind_ok, h12]
  rfl

/-- C6: the shared random-access retrieval discipline of
`read_message_data_record` (v1.3 and v1.2 indexed, embedded once as
`skipMsgDefsToMsgData`): starting from the entry's position, every record
with opcode 0x01 is skipped together with its data blob, and the first
record with another opcode must have opcode 0x02 — then the reader stands
at its data blob — otherwise a format error is raised. -/
theorem c6_skip_msg_defs_then_require_msg_data (f : Bytes) (datas : List Bytes) :
    ∀ (pos b : Nat) (d2 rest : Bytes) (fuel : Nat),
      f.drop pos = (datas.map (opOnlyRec 1)).flatten ++ opOnlyRec b d2 ++ rest →
      b < 256 → b ≠ 1 →
      (∀ x ∈ datas, x.length < 4294967296) →
      datas.length < fuel →
      (b = 2 →
        skipMsgDefsToMsgData f fuel pos =
          .ok (pos + ((datas.map (opOnlyRec 1)).flatten).length + 12)) ∧
      (b ≠ 2 →
        skipMsgDefsToMsgData f fuel pos =
          .error (.rosBagFormat ("Expecting OP_MSG_DATA, got " ++ toString b))) := by
  induction datas with
  | nil =>
    intro pos b d2 rest fuel hdrop hb hb1 _ hfuel
    cases fuel with
    | zero => omega
    | succ k =>
      simp only [List.map_nil, List.flatten_nil, List.nil_append] at hdrop
      unfold skipMsgDefsToMsgData
      rw [read_record_header_op f pos b d2 rest hdrop hb]
      simp only [ebind_ok]
      have hop : read_uint8_field [(strB "op", [b])] (strB "op") = .ok b := rfl
      rw [hop]
      simp only [ebind_ok]
      rw [if_pos (show b ≠ OP_MSG_DEF from hb1)]
      constructor
      · intro h2
        subst h2
        rw [if_neg (show ¬((2 : Nat) ≠ OP_MSG_DATA) by decide)]
        simp
      · intro h2
        rw [if_pos (show b ≠ OP_MSG_DATA from h2)]
  | cons x xs ih =>
    intro pos b d2 rest fuel hdrop hb hb1 hds hfuel
    cases fuel with
    | zero => simp at hfuel
    | succ k =>
      have hxlen : x.length < 4294967296 := hds x (by simp)
      have hdrop1 : f.drop pos = opOnlyRec 1 x ++
          ((xs.map (opOnlyRec 1)).flatten ++ opOnlyRec b d2 ++ rest) := by
        rw [hdrop]
        simp [List.append_assoc]
      unfold skipMsgDefsToMsgData
      rw [read_record_header_op f pos 1 x
        ((xs.map (opOnlyRec 1)).flatten ++ opOnlyRec b d2 ++ rest) hdrop1 (by norm_num)]
      simp only [ebind_ok]
      have hop : read_uint8_field [(strB "op", [1])] (strB "op") = .ok 1 := rfl
      rw [hop]
      simp only [ebind_ok]
      rw [if_neg (show ¬((1 : Nat) ≠ OP_MSG_DEF) by decide)]
      have hdropData : f.drop (pos + 12) = u32enc x.length ++ x ++
          ((xs.map (opOnlyRec 1)).flatten ++ opOnlyRec b d2 ++ rest) := by
        have h1 : f.drop pos = ([8, 0, 0, 0] ++ [4, 0, 0, 0, 111, 112, 61, 1 % 256]) ++
            (u32enc x.length ++ x ++
              ((xs.map (opOnlyRec 1)).flatten ++ opOnlyRec b d2 ++ rest)) := by
          rw [hdrop1, opOnlyRec_eq]
          simp [List.append_assoc]
        have := drop_next f pos ([8, 0, 0, 0] ++ [4, 0, 0, 0, 111, 112, 61, 1 % 256])
          (u32enc x.length ++ x ++
            ((xs.map (opOnlyRec 1)).flatten ++ opOnlyRec b d2 ++ rest)) h1
        simpa using this
      rw [read_record_data_at f (pos + 12) x
        ((xs.map (opOnlyRec 1)).flatten ++ opOnlyRec b d2 ++ rest) hdropData hxlen]
      simp only [ebind_ok]
      have hdropNext : f.drop (pos + 12 + 4 + x.length) =
          (xs.map (opOnlyRec 1)).flatten ++ opOnlyRec b d2 ++ rest := by
        have h1 : f.drop pos = (opOnlyRec 1 x) ++
            ((xs.map (opOnlyRec 1)).flatten ++ opOnlyRec b d2 ++ rest) := hdrop1
        have h2 := drop_next f pos (opOnlyRec 1 x)
          ((xs.map (opOnlyRec 1)).flatten ++ opOnlyRec b d2 ++ rest) h1
        rw [opOnlyRec_length] at h2
        have h3 : pos + 12 + 4 + x.length = pos + (16 + x.length) := by omega
        rw [h3]
        exact h2
      have hrec := ih (pos + 12 + 4 + x.length) b d2 rest k hdropNext hb hb1
        (fun y hy => hds y (by simp [hy])) (by simpa using Nat.lt_of_succ_lt_succ hfuel)
      constructor
      · intro h2
        rw [(hrec.1 h2)]
        congr 1
        simp only [List.map_cons, List.flatten_cons, List.length_append, opOnlyRec_length]
        omega
      · intro h2
        exact hrec.2 h2

/-- Witness for C6: on a stream of one 0x01 record (data `[7]`) followed by
a 0x02 record (data `[9]`), the discipline skips the definition and stops
at the message-data record's blob (byte 29). -/
theorem c6_skip_msg_defs_then_require_msg_data_witness :
    skipMsgDefsToMsgData (opOnlyRec 1 [7] ++ opOnlyRec 2 [9]) 2 0 = .ok 29 := by
  have h := (c6_skip_msg_defs_then_require_msg_data (opOnlyRec 1 [7] ++ opOnlyRec 2 [9])
    [[7]] 0 2 [9] [] 2 (by rfl) (by decide) (by decide)
    (by intro x hx; simp at hx; subst hx; decide) (by decide)).1 rfl
  simpa using h

/-- At or past end of file, a record-header read fails with `struct.error`
(the u32 size read gets no bytes). -/
theorem read_record_header_eof (f : Bytes) (pos : Nat) (h : f.length ≤ pos) :
    read_record_header f pos = .error .structError := by
  unfold read_record_header read_sized read_uint32 fread
  rw [List.drop_eq_nil_of_le h]
  rfl

/-- A `get_messages` step of the v1.2 unindexed reader at end of file ends
the sequence cleanly. -/
theorem getMessages102U_clean_eof (f : Bytes) (fuel pos : Nat)
    (tis : List (Bytes × TopicInfo)) (memo : List Bytes) (lastTI : Option TopicInfo)
    (acc : List Msg) (h : f.length ≤ pos) :
    getMessages102U f (fuel + 1) pos tis memo lastTI acc = (acc, none, tis) := by
  unfold getMessages102U
  rw [read_record_header_eof f pos h]

/-- C7 (amended): for the v1.2 unindexed reader, end of file at a
record-header boundary ends the sequence cleanly (shown in general and on
the concrete stream `streamClean`, which yields its one message); a file
truncated within a record's data blob aborts with a FormatError (nothing is
closed: `close` is a no-op); but truncation within the record header itself
also ends the sequence cleanly, because all header-read errors are
swallowed. -/
theorem c7_unindexed_iteration_termination :
    getMessages102U streamClean streamClean.length 0 [] [] none [] =
      ([⟨strB "p/I", [7]⟩], none, [(topicA, tiA)]) ∧
    getMessages102U streamDataTrunc 10 0 [] [] none [] =
      ([], some (.rosBagFormat "Error reading record data"), []) ∧
    (∀ f fuel pos tis memo lastTI acc, f.length ≤ pos →
      getMessages102U f (fuel + 1) pos tis memo lastTI acc = (acc, none, tis)) := by
  refine ⟨rfl, rfl, fun f fuel pos tis memo lastTI acc h =>
    getMessages102U_clean_eof f fuel pos tis memo lastTI acc h⟩

/-- C4 (amended): whenever the version line parses to a version other than
102 and 103, `open` raises the FormatError naming that version, and the
byte source is left open — it is closed only when the version line itself
fails to parse. -/
theorem c4_unknown_version_error (f : Bytes) (fuel v pos : Nat)
    (hv : read_version f 0 = .ok (v, pos)) (h2 : v ≠ 102) (h3 : v ≠ 103) :
    bagOpen f fuel =
      (.error (.rosBagFormat ("unknown bag version " ++ toString v)), false) := by
  unfold bagOpen
  rw [hv]
  simp [h2, h3]

/-- Witness for C4: the banner `#ROSTEST V4.2\n` parses to version 402,
which is neither 102 nor 103, so `open` fails with the unknown-version
FormatError and leaves the source open. -/
theorem c4_unknown_version_error_witness :
    bagOpen (strB "#ROSTEST V4.2\n") 5 =
      (.error (.rosBagFormat ("unknown bag version " ++ toString 402)), false) :=
  c4_unknown_version_error (strB "#ROSTEST V4.2\n") 5 402 14 rfl
    (by decide) (by decide)

/-- C8 counterexample: the first line `#ROSBAG V1x3` does not match the
claimed pattern (no literal dot between the digits), yet `_read_version`
accepts it — the unescaped `.` of the regex matches any byte — and returns
version 103 instead of raising. -/
theorem c8_non_dot_banner_accepted :
    read_version (strB "#ROSBAG V1x3\n") 0 = .ok (103, 13) := by
  rfl

/-- Inversion of the version-pattern tail matcher. -/
theorem matchVersionTail_some (l : Bytes) (v : Nat) (h : matchVersionTail l = some v) :
    ∃ d1 c d2 t, l = 32 :: 86 :: d1 :: c :: d2 :: t ∧ isDigitByte d1 ∧ isDigitByte d2 ∧
      c ≠ 10 := by
  match l with
  | [] => exact absurd h (by simp [matchVersionTail])
  | [a] => exact absurd h (by simp [matchVersionTail])
  | [a, b] => exact absurd h (by simp [matchVersionTail])
  | [a, b, c0] => exact absurd h (by simp [matchVersionTail])
  | [a, b, c0, d0] => exact absurd h (by simp [matchVersionTail])
  | a :: b :: d1 :: c :: d2 :: t =>
    have hred : matchVersionTail (a :: b :: d1 :: c :: d2 :: t) =
        if a = 32 ∧ b = 86 ∧ isDigitByte d1 = true ∧ c ≠ 10 ∧ isDigitByte d2 = true then
          some ((d1 - 48) * 100 + (d2 - 48)) else none := rfl
    rw [hred] at h
    by_cases hcond : a = 32 ∧ b = 86 ∧ isDigitByte d1 = true ∧ c ≠ 10 ∧ isDigitByte d2 = true
    · obtain ⟨h32, h86, hd1, hc, hd2⟩ := hcond
      subst h32
      subst h86
      exact ⟨d1, c, d2, t, rfl, hd1, hd2, hc⟩
    · rw [if_neg hcond] at h
      exact absurd h (by simp)

/-- C8 (amended): the version matcher accepts exactly the first lines of
the form `#ROS<tag> V<M><c><m>…` where `<c>` is ANY single non-newline byte
— the dot in the source's regex is unescaped, so a literal dot is not
required — and `_read_version` succeeds exactly when the stripped first
line matches this relaxed pattern, raising an error on every other line. -/
theorem c8_version_banner_pattern :
    (∀ line : Bytes, (matchVersionLine line).isSome ↔ bannerMatches line) ∧
    (∀ (f : Bytes) (pos : Nat),
      (∃ v p2, read_version f pos = .ok (v, p2)) ↔
        bannerMatches (rstrip (readline f pos).1)) := by
  have main : ∀ line : Bytes, (matchVersionLine line).isSome ↔ bannerMatches line := by
    intro line
    constructor
    · intro hs
      unfold matchVersionLine at hs
      split at hs
      case isTrue htake =>
        dsimp only at hs
        rw [List.findSome?_isSome_iff] at hs
        obtain ⟨k, _, hk⟩ := hs
        by_cases hall : ((line.drop 4).take k).all (fun b => !(b == 10))
        · rw [if_pos hall] at hk
          rw [Option.isSome_iff_exists] at hk
          obtain ⟨v, hv⟩ := hk
          obtain ⟨d1, c, d2, t, hshape, hd1, hd2, hc⟩ :=
            matchVersionTail_some ((line.drop 4).drop k) v hv
          refine ⟨(line.drop 4).take k, d1, c, d2, t, ?_, hd1, hd2, hc, ?_⟩
          · conv_lhs => rw [← List.take_append_drop 4 line]
            rw [htake]
            conv_lhs => rw [← List.take_append_drop k (line.drop 4)]
            rw [hshape]
            simp
          · intro hmem
            have := List.all_eq_true.mp hall 10 hmem
            simp at this
        · rw [if_neg hall] at hk
          simp at hk
      case isFalse => simp at hs
    · rintro ⟨tag, d1, c, d2, r2, hline, hd1, hd2, hc, htag⟩
      have hlen4 : (strB "#ROS").length = 4 := rfl
      have hassoc : line = strB "#ROS" ++ (tag ++ (32 :: 86 :: d1 :: c :: d2 :: r2)) := by
        rw [hline]
        simp
      have htake : line.take 4 = strB "#ROS" := by
        rw [hassoc, ← hlen4, List.take_left]
      have hdrop : line.drop 4 = tag ++ (32 :: 86 :: d1 :: c :: d2 :: r2) := by
        rw [hassoc, ← hlen4, List.drop_left]
      unfold matchVersionLine
      rw [if_pos htake]
      dsimp only
      rw [List.findSome?_isSome_iff]
      refine ⟨tag.length, ?_, ?_⟩
      · rw [List.mem_reverse, List.mem_range, hdrop]
        simp only [List.length_append, List.length_cons]
        omega
      · rw [hdrop, List.take_left, List.drop_left]
        rw [if_pos ?hall]
        case hall =>
          rw [List.all_eq_true]
          intro b hb
          simp only [Bool.not_eq_true', beq_eq_false_iff_ne]
          intro hb10
          exact htag (hb10 ▸ hb)
        have hmt : matchVersionTail (32 :: 86 :: d1 :: c :: d2 :: r2) =
            if (32 : Nat) = 32 ∧ (86 : Nat) = 86 ∧ isDigitByte d1 = true ∧ c ≠ 10 ∧
                isDigitByte d2 = true then
              some ((d1 - 48) * 100 + (d2 - 48)) else none := rfl
        rw [hmt, if_pos ⟨rfl, rfl, hd1, hc, hd2⟩]
        rfl
  refine ⟨main, ?_⟩
  intro f pos
  unfold read_version
  cases hm : matchVersionLine (rstrip (readline f pos).1) with
  | none =>
    rw [← main]
    rw [hm]
    constructor
    · rintro ⟨v, p2, hvp⟩
      dsimp only at hvp
      rw [hm] at hvp
      exact absurd hvp (by simp)
    · intro hfalse
      simp at hfalse
  | some v =>
    rw [← main, hm]
    constructor
    · intro _
      rfl
    · intro _
      refine ⟨v, (readline f pos).2, ?_⟩
      dsimp only
      rw [hm]

/-- C9 counterexample: iterating a v1.2 unindexed bag of one
message-definition record mutates the Bag's `topic_infos` table (it gains
the `/a` entry), contradicting the claim that no parsed table is changed by
`get_messages` for every bag. -/
theorem c9_unindexed_iteration_mutates_topic_infos :
    (getMessages102U streamDefOnly 10 0 [] [] none []).2.2 = [(topicA, tiA)] ∧
    (getMessages102U streamDefOnly 10 0 [] [] none []).2.2 ≠ [] := by
  exact ⟨rfl, by decide⟩

/-- C10 (amended): `close` never raises and is a no-op: it neither closes
the byte source nor discards the decompressed-chunk cache. -/
theorem c10_close_is_noop (s : BagFacadeState) : bagClose s = s := rfl

/-- C10 counterexample: after `close` on a bag whose source is open and
whose cache holds chunk 100, the source is still open and the cache still
holds chunk 100, contradicting the claim that both are released. -/
theorem c10_close_releases_nothing :
    (bagClose ⟨false, stateCafter⟩).fileClosed = false ∧
    (bagClose ⟨false, stateCafter⟩).serializer.decompressed_chunk_pos = some 100 := by
  exact ⟨rfl, rfl⟩

end Rosbag
